import Mathlib

/-!
Shallow embedding of `src/stream_vdif_frames.py`, a script that packs a
quantized test signal into VDIF frames and sends them over UDP at a fixed
cadence.  Machine integers are modelled as `Nat` (Python integers are
unbounded; the C-level 32-bit packing of `struct.pack_into` is made explicit
with `% 2 ^ 32` style arithmetic where it matters).  Wall-clock quantities
are modelled as `ℚ`.
-/

/-- Sampling rate in Hz; source line 13, `SAMPLE_RATE = 64e6` (the float
64e6 is exactly representable, so `ℚ` is a faithful model). -/
def SAMPLE_RATE : ℚ := 64000000

/-- Samples per frame; source line 14. -/
def SAMPLES_PER_FRAME : ℕ := 20000

/-- Frame duration in seconds; source line 15,
`FRAME_DURATION = SAMPLES_PER_FRAME / SAMPLE_RATE`. -/
def FRAME_DURATION : ℚ := (SAMPLES_PER_FRAME : ℚ) / SAMPLE_RATE

/-- Frames per second; source line 16,
`FRAMES_PER_SECOND = int(SAMPLE_RATE / SAMPLES_PER_FRAME)`.  The float
division `64e6 / 20000` is exact (both operands and the quotient 3200 are
exactly representable doubles), so the rational model is faithful;
`int` truncation of a nonnegative value is `Int.toNat` of the floor. -/
def FRAMES_PER_SECOND : ℕ := (⌊SAMPLE_RATE / (SAMPLES_PER_FRAME : ℚ)⌋).toNat

/-- Bits per sample; source line 18. -/
def BITS_PER_SAMPLE : ℕ := 2

/-- Channel count; source line 19. -/
def CHANNELS : ℕ := 1

/-- VDIF thread ID; source line 20. -/
def THREAD_ID : ℕ := 0

/-- Station ID characters; source line 21, `STATION_ID = 'AA'`. -/
def STATION_ID : List Char := ['A', 'A']

/-- VDIF version; source line 22. -/
def VDIF_VERSION : ℕ := 1

/-- Payload size as a function of the two controlling constants; source
line 26, `PAYLOAD_SIZE = (SAMPLES_PER_FRAME * BITS_PER_SAMPLE + 7) // 8`,
kept parametric so the computation can be examined at other
configurations. -/
def payload_size_of (samples_per_frame bits_per_sample : ℕ) : ℕ :=
  (samples_per_frame * bits_per_sample + 7) / 8

/-- The script's payload size constant; source line 26. -/
def PAYLOAD_SIZE : ℕ := payload_size_of SAMPLES_PER_FRAME BITS_PER_SAMPLE

/-- Year of era, `[0, 399]`, of a day of era `[0, 146096]`; the year-of-era
formula of the standard Gregorian civil-from-days algorithm. -/
def yoe_of (doe : ℕ) : ℕ :=
  (doe - doe / 1460 + doe / 36524 - doe / 146096) / 365

/-- Day of era on which a given year of era starts (days before it within
the era): `365 * yoe + yoe / 4 - yoe / 100`, March-based years. -/
def year_start_of (yoe : ℕ) : ℕ := 365 * yoe + yoe / 4 - yoe / 100

/-- Day of the (March-based) year of a day of era. -/
def doy_of (doe : ℕ) : ℕ := doe - year_start_of (yoe_of doe)

/-- Month index `[0, 11]` counted from March, of a day of era. -/
def mp_of (doe : ℕ) : ℕ := (5 * doy_of doe + 2) / 153

/-- Civil month `[1, 12]` of a day of era. -/
def month_of (doe : ℕ) : ℕ :=
  if mp_of doe < 10 then mp_of doe + 3 else mp_of doe - 9

/-- Inner computation of the standard Gregorian civil-from-days algorithm,
on an era number and a day of era; returns (year, month). -/
def civilOfDoe (era doe : ℕ) : ℕ × ℕ :=
  (yoe_of doe + era * 400 + (if month_of doe ≤ 2 then 1 else 0), month_of doe)

/-- Year and month of a day count since 1970-01-01 (proleptic Gregorian,
UTC).  This models the date part of Python's
`datetime.utcfromtimestamp` for nonnegative timestamps, via the standard
civil-from-days conversion (146097-day = 400-year eras). -/
def civil_from_days (d : ℕ) : ℕ × ℕ :=
  civilOfDoe ((d + 719468) / 146097) ((d + 719468) % 146097)

/-- UTC calendar year of a nonnegative Unix timestamp;
models `datetime.utcfromtimestamp(epoch_seconds).year` (source line 33). -/
def utc_year (epoch_seconds : ℕ) : ℕ := (civil_from_days (epoch_seconds / 86400)).1

/-- UTC calendar month of a nonnegative Unix timestamp;
models `datetime.utcfromtimestamp(epoch_seconds).month` (source line 33). -/
def utc_month (epoch_seconds : ℕ) : ℕ := (civil_from_days (epoch_seconds / 86400)).2

/-- Source lines 32-35: number of 6-month periods since 1 Jan 2000,
`(epoch.year - 2000) * 2 + (0 if epoch.month <= 6 else 1)`.  The result is
an integer that can be negative for pre-2000 timestamps, hence `ℤ`. -/
def reference_epoch_from_seconds (epoch_seconds : ℕ) : ℤ :=
  let half : ℤ := if utc_month epoch_seconds ≤ 6 then 0 else 1
  ((utc_year epoch_seconds : ℤ) - 2000) * 2 + half

/-- Source line 51: `frame_length_units = (len(header) + PAYLOAD_SIZE) // 8`
with `len(header) = 32`; Python `//` is floor division. -/
def frame_length_units (payload : ℕ) : ℕ := (32 + payload) / 8

/-- Source line 52: `int(np.log2(CHANNELS))`; for the power-of-two channel
counts the header format supports this is the exact base-2 logarithm. -/
def log2_channels : ℕ := Nat.log2 CHANNELS

/-- Source line 56: `station = (ord(STATION_ID[0]) << 8) | ord(STATION_ID[1])`. -/
def station : ℕ :=
  ((STATION_ID.getD 0 ' ').toNat <<< 8) ||| (STATION_ID.getD 1 ' ').toNat

/-- Source line 42: `word0 = epoch_seconds & 0x3FFFFFFF`. -/
def vdif_word0 (epoch_seconds : ℕ) : ℕ := epoch_seconds &&& 0x3FFFFFFF

/-- Source line 47:
`word1 = ((ref_epoch & 0x3F) << 24) | (frame_number & 0x00FFFFFF)`.
Python's `& 0x3F` on a (possibly negative) int is the nonnegative residue
mod 64, i.e. `Int.emod` by 64. -/
def vdif_word1 (epoch_seconds frame_number : ℕ) : ℕ :=
  (((reference_epoch_from_seconds epoch_seconds) % 64).toNat <<< 24) |||
    (frame_number &&& 0x00FFFFFF)

/-- Source line 52: `word2 = ((VDIF_VERSION & 0x7) << 29) |
((int(np.log2(CHANNELS)) & 0x1F) << 24) | (frame_length_units & 0x00FFFFFF)`,
parametric in the payload size that `frame_length_units` is computed from. -/
def vdif_word2 (payload : ℕ) : ℕ :=
  ((VDIF_VERSION &&& 0x7) <<< 29) ||| ((log2_channels &&& 0x1F) <<< 24) |||
    (frame_length_units payload &&& 0x00FFFFFF)

/-- Source line 57: `word3 = ((0) << 31) | (((BITS_PER_SAMPLE - 1) & 0x1F) << 26)
| ((THREAD_ID & 0x3FF) << 16) | (station & 0xFFFF)`. -/
def vdif_word3 : ℕ :=
  (0 <<< 31) ||| (((BITS_PER_SAMPLE - 1) &&& 0x1F) <<< 26) |||
    ((THREAD_ID &&& 0x3FF) <<< 16) ||| (station &&& 0xFFFF)

/-- Byte image of `struct.pack_into('<I', buf, off, w)`: the four bytes of
the 32-bit word `w`, least significant first. -/
def pack_le32 (w : ℕ) : List ℕ :=
  [w % 256, w / 2 ^ 8 % 256, w / 2 ^ 16 % 256, w / 2 ^ 24 % 256]

/-- Source lines 37-61, `create_vdif_header`, kept parametric in the payload
size the script reads from the global `PAYLOAD_SIZE`: a 32-byte header,
words 0-3 packed little-endian at offsets 0, 4, 8, 12, and the remaining
four words left as the zero bytes of `bytearray(32)`. -/
def create_vdif_header_cfg (payload epoch_seconds frame_number : ℕ) : List ℕ :=
  pack_le32 (vdif_word0 epoch_seconds) ++
    pack_le32 (vdif_word1 epoch_seconds frame_number) ++
    pack_le32 (vdif_word2 payload) ++
    pack_le32 vdif_word3 ++
    List.replicate 16 0

/-- Source lines 37-61, `create_vdif_header` with the script's own
configuration. -/
def create_vdif_header (epoch_seconds frame_number : ℕ) : List ℕ :=
  create_vdif_header_cfg PAYLOAD_SIZE epoch_seconds frame_number

/-- Source lines 73-79, the inner loop of `generate_payload`: pack one group
of up to four 2-bit samples into one byte, most significant slot first;
`group.getD bit_pos 0` is the source's "sample if in range else 0", and the
in-range sample is masked with `& 0x03`. -/
def packGroup (group : List ℕ) : ℕ :=
  (List.range 4).foldl
    (fun byte bit_pos => byte ||| ((group.getD bit_pos 0 &&& 0x03) <<< (6 - 2 * bit_pos)))
    0

/-- Source lines 69-81, `generate_payload`: the loop
`for i in range(0, len(samples), 4)` consumes the sample list four at a
time, zero-filling the final short group, and emits one byte per group. -/
def generate_payload : List ℕ → List ℕ
  | [] => []
  | [a] => [packGroup [a]]
  | [a, b] => [packGroup [a, b]]
  | [a, b, c] => [packGroup [a, b, c]]
  | a :: b :: c :: d :: rest => packGroup [a, b, c, d] :: generate_payload rest

/-- Modelled from the spec: the inverse of the Bit Packer, reading
`8 / bitsPerSample = 4` two-bit codes per byte, most significant bits
first.  Defined from the spec's words for the round-trip claim; it is not
part of the source. -/
def unpack_codes_msb (bytes : List ℕ) : List ℕ :=
  bytes.flatMap (fun byte =>
    [(byte >>> 6) &&& 0x03, (byte >>> 4) &&& 0x03, (byte >>> 2) &&& 0x03, byte &&& 0x03])

/-- Source line 87: `num_frames = int(duration_seconds * FRAMES_PER_SECOND)`;
for the nonnegative durations of interest `int` truncation is the floor. -/
def num_frames (duration_seconds : ℚ) : ℤ :=
  ⌊duration_seconds * (FRAMES_PER_SECOND : ℚ)⌋

/-- Source line 94: `epoch_seconds = epoch_start + frame_num // FRAMES_PER_SECOND`. -/
def epoch_seconds_of (epoch_start frame_num : ℕ) : ℕ :=
  epoch_start + frame_num / FRAMES_PER_SECOND

/-- Source line 107: `frame_in_second = frame_num % FRAMES_PER_SECOND`. -/
def frame_in_second_of (frame_num : ℕ) : ℕ := frame_num % FRAMES_PER_SECOND

/-- Source lines 104-111: one iteration's datagram, as a function of the
frame counter and that frame's quantized samples —
`create_vdif_header(epoch_seconds, frame_in_second) +
generate_payload(quantized_signal)[:PAYLOAD_SIZE]`. -/
def vdif_frame (epoch_start frame_num : ℕ) (samples : List ℕ) : List ℕ :=
  create_vdif_header (epoch_seconds_of epoch_start frame_num) (frame_in_second_of frame_num) ++
    (generate_payload samples).take PAYLOAD_SIZE

/-- Source lines 93-117, the pacing structure of the send loop: each
iteration spends some per-iteration processing-and-send overhead `o ≥ 0`
and then executes `time.sleep(FRAME_DURATION)` (line 117) — a fixed-duration
sleep.  `tick_finish_time start o i` is the wall-clock time at which
iteration `i` (0-based) completes, starting from time `start`. -/
def tick_finish_time (start o : ℚ) : ℕ → ℚ
  | 0 => start + o + FRAME_DURATION
  | i + 1 => tick_finish_time start o i + o + FRAME_DURATION

/-- Modelled from the spec: the absolute deadline
`start_time + (i + 1) * frameDurationSec` that the spec says each tick
blocks until.  Defined from the spec's words for comparison with the
source's fixed-sleep loop; it is not part of the source. -/
def absolute_deadline (start : ℚ) (i : ℕ) : ℚ :=
  start + (i + 1 : ℕ) * FRAME_DURATION

/-- Half-year bit of a civil month: 0 for January-June, 1 for July-December
(the `0 if epoch.month <= 6 else 1` of source line 34, as a `ℕ`). -/
def halfbit (m : ℕ) : ℕ := if m ≤ 6 then 0 else 1

/-- Half-year index of a day count since 1970-01-01: twice the civil year
plus the half-year bit; `reference_epoch_from_seconds` is this value of the
timestamp's day, shifted down by 4000. -/
def halfIndex (d : ℕ) : ℕ :=
  (civil_from_days d).1 * 2 + halfbit (civil_from_days d).2

/-- Half-year index expressed on an era number and day of era. -/
def hIdxDoe (era doe : ℕ) : ℕ :=
  (civilOfDoe era doe).1 * 2 + halfbit (civilOfDoe era doe).2

/-- Little-endian 32-bit read of the first four bytes of a byte list; the
decoding counterpart of `pack_le32` used to state header-field claims. -/
def read_le32 (l : List ℕ) : ℕ :=
  l.getD 0 0 + 2 ^ 8 * l.getD 1 0 + 2 ^ 16 * l.getD 2 0 + 2 ^ 24 * l.getD 3 0

/-! ### Calendar lemmas: the reference-epoch index is monotone -/

/-- One step of the year-of-era numerator: it never decreases and grows by
at most 2 per day. -/
theorem yoe_num_step (d : ℕ) :
    d - d / 1460 + d / 36524 - d / 146096 ≤
      (d + 1) - (d + 1) / 1460 + (d + 1) / 36524 - (d + 1) / 146096 ∧
    (d + 1) - (d + 1) / 1460 + (d + 1) / 36524 - (d + 1) / 146096 ≤
      (d - d / 1460 + d / 36524 - d / 146096) + 2 := by
  have hdvd : (146096 : ℕ) ∣ d + 1 → (36524 : ℕ) ∣ d + 1 :=
    fun h => dvd_trans (by norm_num) h
  omega

/-- The year of era never decreases and grows by at most 1 per day. -/
theorem yoe_of_step (d : ℕ) :
    yoe_of d ≤ yoe_of (d + 1) ∧ yoe_of (d + 1) ≤ yoe_of d + 1 := by
  obtain ⟨hlo, hhi⟩ := yoe_num_step d
  unfold yoe_of
  constructor
  · exact Nat.div_le_div_right hlo
  · calc ((d + 1) - (d + 1) / 1460 + (d + 1) / 36524 - (d + 1) / 146096) / 365
        ≤ ((d - d / 1460 + d / 36524 - d / 146096) + 365) / 365 :=
          Nat.div_le_div_right (by omega)
      _ = (d - d / 1460 + d / 36524 - d / 146096) / 365 + 1 :=
          Nat.add_div_right _ (by norm_num)

theorem yoe_of_mono : Monotone yoe_of :=
  monotone_nat_of_le_succ fun d => (yoe_of_step d).1

set_option maxRecDepth 4000 in
/-- The year of era evaluated at each year-start day of the era. -/
theorem yoe_of_year_start : ∀ y < 400, yoe_of (year_start_of y) = y := by decide

set_option maxRecDepth 4000 in
/-- The year of era evaluated on the day before each year start. -/
theorem yoe_of_year_start_pred :
    ∀ y < 400, 1 ≤ y → yoe_of (year_start_of y - 1) = y - 1 := by decide

theorem yoe_of_last : yoe_of 146096 = 399 := by decide

theorem year_start_of_succ_le (y : ℕ) :
    year_start_of (y + 1) ≤ year_start_of y + 366 := by
  unfold year_start_of
  omega

/-- Every day of era lies on or after the start of its computed year of
era, at most 365 days into it, and its year of era is at most 399. -/
theorem int_phase (doe : ℕ) (h : doe ≤ 146096) :
    year_start_of (yoe_of doe) ≤ doe ∧ doy_of doe ≤ 365 ∧ yoe_of doe ≤ 399 := by
  have h399 : yoe_of doe ≤ 399 := by
    have := yoe_of_mono h
    rwa [yoe_of_last] at this
  have hstart : year_start_of (yoe_of doe) ≤ doe := by
    rcases Nat.eq_zero_or_pos (yoe_of doe) with h0 | hpos
    · rw [h0]; unfold year_start_of; omega
    · by_contra hlt
      push_neg at hlt
      have hle : doe ≤ year_start_of (yoe_of doe) - 1 := by omega
      have := yoe_of_mono hle
      rw [yoe_of_year_start_pred (yoe_of doe) (by omega) hpos] at this
      omega
  refine ⟨hstart, ?_, h399⟩
  unfold doy_of
  rcases Nat.lt_or_ge (yoe_of doe) 399 with hlt399 | hge
  · have hup : doe < year_start_of (yoe_of doe + 1) := by
      by_contra hge2
      push_neg at hge2
      have := yoe_of_mono hge2
      rw [yoe_of_year_start (yoe_of doe + 1) (by omega)] at this
      omega
    have := year_start_of_succ_le (yoe_of doe)
    omega
  · have h399' : yoe_of doe = 399 := by omega
    rw [h399']
    have : year_start_of 399 = 145731 := by decide
    omega

theorem mp_of_le (doe : ℕ) (h : doy_of doe ≤ 365) : mp_of doe ≤ 11 := by
  unfold mp_of
  calc (5 * doy_of doe + 2) / 153 ≤ 1827 / 153 := Nat.div_le_div_right (by omega)
    _ = 11 := by norm_num

/-- The half-year index is nondecreasing from one day of an era to the
next. -/
theorem hIdxDoe_step (era doe : ℕ) (h : doe < 146096) :
    hIdxDoe era doe ≤ hIdxDoe era (doe + 1) := by
  obtain ⟨hs1, hd1, hy1⟩ := int_phase doe (by omega)
  obtain ⟨hs2, hd2, hy2⟩ := int_phase (doe + 1) (by omega)
  obtain ⟨hlo, hhi⟩ := yoe_of_step doe
  have hmp1 : mp_of doe ≤ 11 := mp_of_le doe hd1
  have hmp2 : mp_of (doe + 1) ≤ 11 := mp_of_le (doe + 1) hd2
  rcases Nat.lt_or_ge (yoe_of (doe + 1)) (yoe_of doe + 1) with hcase | hcase
  · have hyeq : yoe_of (doe + 1) = yoe_of doe := by omega
    have hdoy : doy_of (doe + 1) = doy_of doe + 1 := by
      unfold doy_of
      rw [hyeq]
      omega
    have hmpmono : mp_of doe ≤ mp_of (doe + 1) := by
      unfold mp_of
      rw [hdoy]
      exact Nat.div_le_div_right (by omega)
    unfold hIdxDoe civilOfDoe halfbit month_of
    rw [hyeq]
    split_ifs <;> omega
  · have hyeq : yoe_of (doe + 1) = yoe_of doe + 1 := by omega
    unfold hIdxDoe civilOfDoe halfbit month_of
    rw [hyeq]
    split_ifs <;> omega

theorem halfIndex_eq_hIdxDoe (d : ℕ) :
    halfIndex d = hIdxDoe ((d + 719468) / 146097) ((d + 719468) % 146097) := rfl

/-- The half-year index is nondecreasing from one day to the next, also
across era boundaries. -/
theorem halfIndex_step (d : ℕ) : halfIndex d ≤ halfIndex (d + 1) := by
  have hz : d + 1 + 719468 = d + 719468 + 1 := by omega
  rcases Nat.lt_or_ge ((d + 719468) % 146097) 146096 with hlt | hge
  · have he : (d + 719468 + 1) / 146097 = (d + 719468) / 146097 := by omega
    have hm : (d + 719468 + 1) % 146097 = (d + 719468) % 146097 + 1 := by omega
    rw [halfIndex_eq_hIdxDoe, halfIndex_eq_hIdxDoe, hz, he, hm]
    exact hIdxDoe_step _ _ hlt
  · have hge' : (d + 719468) % 146097 = 146096 := by omega
    have he : (d + 719468 + 1) / 146097 = (d + 719468) / 146097 + 1 := by omega
    have hm : (d + 719468 + 1) % 146097 = 0 := by omega
    rw [halfIndex_eq_hIdxDoe, halfIndex_eq_hIdxDoe, hz, he, hm, hge']
    have h1 : month_of 146096 = 2 := by decide
    have h2 : yoe_of 146096 = 399 := by decide
    have h3 : month_of 0 = 3 := by decide
    have h4 : yoe_of 0 = 0 := by decide
    unfold hIdxDoe civilOfDoe halfbit
    rw [h1, h2, h3, h4]
    norm_num
    omega

theorem halfIndex_mono : Monotone halfIndex :=
  monotone_nat_of_le_succ halfIndex_step

theorem reference_epoch_eq_halfIndex (s : ℕ) :
    reference_epoch_from_seconds s = (halfIndex (s / 86400) : ℤ) - 4000 := by
  unfold reference_epoch_from_seconds halfIndex halfbit utc_year utc_month
  split_ifs <;> push_cast <;> ring

/-- Monotonicity of the reference-epoch index in the timestamp. -/
theorem reference_epoch_mono {s t : ℕ} (h : s ≤ t) :
    reference_epoch_from_seconds s ≤ reference_epoch_from_seconds t := by
  rw [reference_epoch_eq_halfIndex, reference_epoch_eq_halfIndex]
  have := halfIndex_mono (Nat.div_le_div_right (c := 86400) h)
  omega

/-! ### Bit-packing lemmas -/

/-- A shifted value or-ed with a small value is their sum. -/
theorem lor_high_low (x y i : ℕ) (h : y < 2 ^ i) : (x <<< i) ||| y = x * 2 ^ i + y := by
  rw [Nat.shiftLeft_eq, Nat.mul_comm x (2 ^ i), ← Nat.mul_add_lt_is_or h, Nat.mul_comm (2 ^ i) x]

theorem and_three_eq_mod (x : ℕ) : x &&& 0x03 = x % 4 := by
  have h := Nat.and_pow_two_sub_one_eq_mod x 2
  norm_num at h
  exact h

/-- Closed arithmetic form of one packed byte: the four 2-bit fields land
at weights 64, 16, 4, 1. -/
theorem packGroup_eq (a b c d : ℕ) :
    packGroup [a, b, c, d] = a % 4 * 64 + b % 4 * 16 + c % 4 * 4 + d % 4 := by
  show (((0 ||| ((a &&& 0x03) <<< 6)) ||| ((b &&& 0x03) <<< 4)) ||| ((c &&& 0x03) <<< 2)) |||
      ((d &&& 0x03) <<< 0) = _
  rw [Nat.zero_or, Nat.lor_assoc, Nat.lor_assoc]
  rw [and_three_eq_mod, and_three_eq_mod, and_three_eq_mod, and_three_eq_mod]
  have hc4 : c % 4 < 4 := Nat.mod_lt c (by norm_num)
  have hd4 : d % 4 < 4 := Nat.mod_lt d (by norm_num)
  have hb4 : b % 4 < 4 := Nat.mod_lt b (by norm_num)
  have h2 : (c % 4) <<< 2 ||| (d % 4) <<< 0 = c % 4 * 4 + d % 4 := by
    rw [Nat.shiftLeft_zero, lor_high_low _ _ _ (show d % 4 < 2 ^ 2 by omega)]
    norm_num
  rw [h2, lor_high_low _ _ _ (show c % 4 * 4 + d % 4 < 2 ^ 4 by omega)]
  rw [lor_high_low _ _ _ (show b % 4 * 2 ^ 4 + (c % 4 * 4 + d % 4) < 2 ^ 6 by omega)]
  norm_num
  omega

/-- A short final group packs exactly like the same group zero-filled. -/
theorem packGroup_one (a : ℕ) : packGroup [a] = packGroup [a, 0, 0, 0] := rfl

theorem packGroup_two (a b : ℕ) : packGroup [a, b] = packGroup [a, b, 0, 0] := rfl

theorem packGroup_three (a b c : ℕ) : packGroup [a, b, c] = packGroup [a, b, c, 0] := rfl

/-- Each 2-bit slot of a packed byte recovers its own code mod 4,
whatever the neighbouring codes are. -/
theorem packGroup_extract (a b c d : ℕ) :
    (packGroup [a, b, c, d] >>> 6) &&& 0x03 = a % 4 ∧
    (packGroup [a, b, c, d] >>> 4) &&& 0x03 = b % 4 ∧
    (packGroup [a, b, c, d] >>> 2) &&& 0x03 = c % 4 ∧
    packGroup [a, b, c, d] &&& 0x03 = d % 4 := by
  rw [packGroup_eq]
  rw [Nat.shiftRight_eq_div_pow, Nat.shiftRight_eq_div_pow, Nat.shiftRight_eq_div_pow]
  rw [and_three_eq_mod, and_three_eq_mod, and_three_eq_mod, and_three_eq_mod]
  norm_num
  refine ⟨?_, ?_, ?_, ?_⟩ <;> omega

/-- Unpacking a single packed byte yields the four codes mod 4. -/
theorem unpack_packGroup (a b c d : ℕ) :
    unpack_codes_msb [packGroup [a, b, c, d]] = [a % 4, b % 4, c % 4, d % 4] := by
  obtain ⟨h1, h2, h3, h4⟩ := packGroup_extract a b c d
  simp only [unpack_codes_msb, List.flatMap_cons, List.flatMap_nil, List.append_nil]
  rw [h1, h2, h3, h4]

/-- Unpacking the packed bytes of a code list below 4 yields the list
itself followed by the zero-filled slots of the final short group. -/
theorem unpack_generate_payload (s : List ℕ) (h : ∀ x ∈ s, x < 4) :
    unpack_codes_msb (generate_payload s) =
      s ++ List.replicate ((4 - s.length % 4) % 4) 0 := by
  induction s using generate_payload.induct with
  | case1 => rfl
  | case2 a =>
    have ha : a < 4 := h a (by simp)
    rw [generate_payload, packGroup_one, unpack_packGroup]
    have hpad : (4 - [a].length % 4) % 4 = 3 := by simp
    rw [hpad]
    simp [Nat.mod_eq_of_lt ha, List.replicate]
  | case3 a b =>
    have ha : a < 4 := h a (by simp)
    have hb : b < 4 := h b (by simp)
    rw [generate_payload, packGroup_two, unpack_packGroup]
    have hpad : (4 - [a, b].length % 4) % 4 = 2 := by simp
    rw [hpad]
    simp [Nat.mod_eq_of_lt ha, Nat.mod_eq_of_lt hb, List.replicate]
  | case4 a b c =>
    have ha : a < 4 := h a (by simp)
    have hb : b < 4 := h b (by simp)
    have hc : c < 4 := h c (by simp)
    rw [generate_payload, packGroup_three, unpack_packGroup]
    have hpad : (4 - [a, b, c].length % 4) % 4 = 1 := by simp
    rw [hpad]
    simp [Nat.mod_eq_of_lt ha, Nat.mod_eq_of_lt hb, Nat.mod_eq_of_lt hc, List.replicate]
  | case5 a b c d rest ih =>
    have ha : a < 4 := h a (by simp)
    have hb : b < 4 := h b (by simp)
    have hc : c < 4 := h c (by simp)
    have hd : d < 4 := h d (by simp)
    have hrest : ∀ x ∈ rest, x < 4 := fun x hx => h x (by simp [hx])
    rw [generate_payload]
    rw [show packGroup [a, b, c, d] :: generate_payload rest =
          [packGroup [a, b, c, d]] ++ generate_payload rest from rfl]
    rw [unpack_codes_msb, List.flatMap_append, ← unpack_codes_msb, ← unpack_codes_msb]
    rw [unpack_packGroup, ih hrest]
    have hlen : ((a :: b :: c :: d :: rest).length % 4) = rest.length % 4 := by
      simp
      omega
    rw [hlen]
    simp [Nat.mod_eq_of_lt ha, Nat.mod_eq_of_lt hb, Nat.mod_eq_of_lt hc, Nat.mod_eq_of_lt hd]

/-- The packed byte count is the ceiling of a quarter of the code count. -/
theorem generate_payload_length (s : List ℕ) :
    (generate_payload s).length = (s.length * 2 + 7) / 8 := by
  induction s using generate_payload.induct with
  | case1 => rfl
  | case2 a => norm_num [generate_payload]
  | case3 a b => norm_num [generate_payload]
  | case4 a b c => norm_num [generate_payload]
  | case5 a b c d rest ih =>
    rw [generate_payload]
    show (generate_payload rest).length + 1 = _
    rw [ih]
    simp only [List.length_cons]
    omega

/-- Zero-filling the final short group leaves the packed bytes unchanged. -/
theorem generate_payload_pad (s : List ℕ) :
    generate_payload s =
      generate_payload (s ++ List.replicate ((4 - s.length % 4) % 4) 0) := by
  induction s using generate_payload.induct with
  | case1 => rfl
  | case2 a =>
    show generate_payload [a] = generate_payload ([a] ++ List.replicate 3 0)
    rw [show ([a] ++ List.replicate 3 0) = [a, 0, 0, 0] from rfl]
    rw [generate_payload, generate_payload, packGroup_one]
    rfl
  | case3 a b =>
    show generate_payload [a, b] = generate_payload ([a, b] ++ List.replicate 2 0)
    rw [show ([a, b] ++ List.replicate 2 0) = [a, b, 0, 0] from rfl]
    rw [generate_payload, generate_payload, packGroup_two]
    rfl
  | case4 a b c =>
    show generate_payload [a, b, c] = generate_payload ([a, b, c] ++ List.replicate 1 0)
    rw [show ([a, b, c] ++ List.replicate 1 0) = [a, b, c, 0] from rfl]
    rw [generate_payload, generate_payload, packGroup_three]
    rfl
  | case5 a b c d rest ih =>
    have hlen : ((a :: b :: c :: d :: rest).length % 4) = rest.length % 4 := by
      simp
      omega
    rw [hlen]
    show generate_payload (a :: b :: c :: d :: rest) =
      generate_payload (a :: b :: c :: d :: (rest ++ List.replicate ((4 - rest.length % 4) % 4) 0))
    rw [generate_payload, generate_payload, ih]

/-! ### Header lemmas -/

theorem create_vdif_header_cfg_length (payload s n : ℕ) :
    (create_vdif_header_cfg payload s n).length = 32 := rfl

theorem header_length (s n : ℕ) : (create_vdif_header s n).length = 32 := rfl

theorem word0_eq_mod (s : ℕ) : vdif_word0 s = s % 2 ^ 30 := by
  unfold vdif_word0
  rw [show (0x3FFFFFFF : ℕ) = 2 ^ 30 - 1 by norm_num, Nat.and_pow_two_sub_one_eq_mod]

/-- The first four header bytes, read back as a little-endian word, are the
byte decomposition of word 0. -/
theorem read_le32_take4 (s n : ℕ) :
    read_le32 ((create_vdif_header s n).take 4) =
      vdif_word0 s % 256 + 2 ^ 8 * (vdif_word0 s / 2 ^ 8 % 256) +
        2 ^ 16 * (vdif_word0 s / 2 ^ 16 % 256) + 2 ^ 24 * (vdif_word0 s / 2 ^ 24 % 256) := rfl

/-- Header bytes 12 onward are the word-3 bytes followed by zeros. -/
theorem header_drop12 (s n : ℕ) :
    (create_vdif_header s n).drop 12 = pack_le32 vdif_word3 ++ List.replicate 16 0 := rfl

theorem read_le32_drop12 (s n : ℕ) :
    read_le32 ((create_vdif_header s n).drop 12) = 0x04004141 := by
  rw [header_drop12 s n]
  rfl

theorem header_byte12 (s n : ℕ) : (create_vdif_header s n).getD 12 0 = 0x41 := by
  rw [show (create_vdif_header s n).getD 12 0 =
      ((create_vdif_header s n).drop 12).getD 0 0 from rfl, header_drop12 s n]
  rfl

theorem header_byte13 (s n : ℕ) : (create_vdif_header s n).getD 13 0 = 0x41 := by
  rw [show (create_vdif_header s n).getD 13 0 =
      ((create_vdif_header s n).drop 12).getD 1 0 from rfl, header_drop12 s n]
  rfl

/-- The low 24 bits of word 1 are the masked frame number. -/
theorem word1_low24 (s n : ℕ) :
    vdif_word1 s n % 2 ^ 24 = n % 2 ^ 24 := by
  unfold vdif_word1
  rw [show (0x00FFFFFF : ℕ) = 2 ^ 24 - 1 by norm_num, Nat.and_pow_two_sub_one_eq_mod]
  rw [lor_high_low _ _ _ (Nat.mod_lt n (by norm_num))]
  omega

theorem frame_length_units_floor (p : ℕ) :
    frame_length_units p * 8 = (32 + p) - (32 + p) % 8 := by
  unfold frame_length_units
  omega

/-! ### Constants and pacing lemmas -/

theorem frames_per_second_eq : FRAMES_PER_SECOND = 3200 := by
  unfold FRAMES_PER_SECOND SAMPLE_RATE SAMPLES_PER_FRAME
  norm_num
  rfl

theorem payload_size_eq : PAYLOAD_SIZE = 5000 := rfl

theorem num_frames_one : num_frames 1 = 3200 := by
  unfold num_frames
  rw [frames_per_second_eq]
  norm_num

/-- Length of one assembled datagram for a full frame of samples. -/
theorem vdif_frame_length (epoch_start frame_num : ℕ) (samples : List ℕ)
    (h : samples.length = SAMPLES_PER_FRAME) :
    (vdif_frame epoch_start frame_num samples).length = 5032 := by
  unfold vdif_frame
  rw [List.length_append, header_length, List.length_take, generate_payload_length, h]
  rw [payload_size_eq]
  unfold SAMPLES_PER_FRAME
  norm_num

/-- Closed form of the fixed-sleep loop's finish times. -/
theorem tick_finish_time_eq (start o : ℚ) (i : ℕ) :
    tick_finish_time start o i = start + (i + 1 : ℕ) * (o + FRAME_DURATION) := by
  induction i with
  | zero =>
    rw [tick_finish_time]
    push_cast
    ring
  | succ i ih =>
    rw [tick_finish_time, ih]
    push_cast
    ring

/-- The fixed-sleep loop drifts past the absolute deadlines linearly in the
tick count. -/
theorem pacing_drift (start o : ℚ) (i : ℕ) :
    tick_finish_time start o i - absolute_deadline start i = (i + 1 : ℕ) * o := by
  rw [tick_finish_time_eq]
  unfold absolute_deadline
  push_cast
  ring

/-! ### Claim theorems -/

/-- C1: for codes below 4, unpacking the packed bytes MSB-first reproduces
the codes followed by the zero-filled slots of a short final group; the
prefix of the original length is always the input, and when the length is
a multiple of 4 the unpacked list is exactly the input. -/
theorem generate_payload_round_trip (codes : List ℕ) (h : ∀ x ∈ codes, x < 4) :
    unpack_codes_msb (generate_payload codes) =
      codes ++ List.replicate ((4 - codes.length % 4) % 4) 0 ∧
    (unpack_codes_msb (generate_payload codes)).take codes.length = codes ∧
    (codes.length % 4 = 0 → unpack_codes_msb (generate_payload codes) = codes) := by
  have key := unpack_generate_payload codes h
  refine ⟨key, ?_, ?_⟩
  · rw [key]
    exact List.take_left codes _
  · intro h4
    rw [key, h4]
    simp

/-- Witness for C1 at a concrete input of length 4 and one of length 5. -/
theorem generate_payload_round_trip_witness :
    unpack_codes_msb (generate_payload [1, 2, 3, 0]) = [1, 2, 3, 0] ∧
    (unpack_codes_msb (generate_payload [1, 2, 3, 0, 2])).take 5 = [1, 2, 3, 0, 2] :=
  ⟨(generate_payload_round_trip [1, 2, 3, 0] (by decide)).2.2 (by decide),
    (generate_payload_round_trip [1, 2, 3, 0, 2] (by decide)).2.1⟩

/-- C2: the packed byte count is exactly `ceil(n * 2 / 8) = ceil(n / 4)`
for every input length `n`, and a short final group is zero-filled without
changing the byte count. -/
theorem generate_payload_length_spec (codes : List ℕ) :
    (generate_payload codes).length = (codes.length * BITS_PER_SAMPLE + 7) / 8 ∧
    (generate_payload codes).length = (codes.length + 3) / 4 ∧
    generate_payload codes =
      generate_payload (codes ++ List.replicate ((4 - codes.length % 4) % 4) 0) := by
  have h := generate_payload_length codes
  refine ⟨?_, ?_, generate_payload_pad codes⟩
  · rw [h]
    rfl
  · rw [h]
    omega

/-- C3: the header is exactly 32 bytes; its word 3 (little-endian at offset
12) carries station ID `"AA"` in the low 16 bits with the first character
in the high byte, so bytes 12 and 13 are both 0x41, and the remaining
word-3 fields sit at the specified positions: data-type bit 0,
`bitsPerSample - 1` in bits 26-30, thread ID in bits 16-25. -/
theorem header_station_spec (epoch_seconds frame_number : ℕ) :
    (create_vdif_header epoch_seconds frame_number).length = 32 ∧
    station = (('A').toNat <<< 8) ||| ('A').toNat ∧
    read_le32 ((create_vdif_header epoch_seconds frame_number).drop 12) &&& 0xFFFF = station ∧
    (create_vdif_header epoch_seconds frame_number).getD 12 0 = 0x41 ∧
    (create_vdif_header epoch_seconds frame_number).getD 13 0 = 0x41 ∧
    read_le32 ((create_vdif_header epoch_seconds frame_number).drop 12) >>> 31 = 0 ∧
    (read_le32 ((create_vdif_header epoch_seconds frame_number).drop 12) >>> 26) &&& 0x1F =
      BITS_PER_SAMPLE - 1 ∧
    (read_le32 ((create_vdif_header epoch_seconds frame_number).drop 12) >>> 16) &&& 0x3FF =
      THREAD_ID := by
  refine ⟨header_length _ _, by decide, ?_, header_byte12 _ _, header_byte13 _ _, ?_, ?_, ?_⟩ <;>
    rw [read_le32_drop12] <;> decide

/-- C4: word 0 of the header is the epoch second masked to its low 30 bits
(the raw Unix second, not an offset from the half-year reference epoch),
and the invalid and legacy bits — the top two bits of the little-endian
word — are zero. -/
theorem header_word0_spec (epoch_seconds frame_number : ℕ) :
    read_le32 ((create_vdif_header epoch_seconds frame_number).take 4) =
      epoch_seconds % 2 ^ 30 ∧
    read_le32 ((create_vdif_header epoch_seconds frame_number).take 4) >>> 30 = 0 := by
  rw [read_le32_take4, word0_eq_mod]
  have hlt : epoch_seconds % 2 ^ 30 < 2 ^ 30 := Nat.mod_lt epoch_seconds (by norm_num)
  rw [Nat.shiftRight_eq_div_pow]
  norm_num
  constructor <;> omega

/-- C5: the reference epoch equals the spec's formula
`(year - 2000) * 2 + (0 if month ≤ 6 else 1)`; it is monotone
nondecreasing in the timestamp; and at the half-year boundary of 2024 it
is constant at 48 from 1 Jan through 30 Jun, then 49 from 1 Jul through
31 Dec — in particular 30 June and 1 July differ, by exactly one. -/
theorem reference_epoch_spec :
    (∀ s : ℕ, reference_epoch_from_seconds s =
      ((utc_year s : ℤ) - 2000) * 2 + (if utc_month s ≤ 6 then 0 else 1)) ∧
    (∀ s k : ℕ, reference_epoch_from_seconds s ≤ reference_epoch_from_seconds (s + k)) ∧
    reference_epoch_from_seconds 1704067200 = 48 ∧
    reference_epoch_from_seconds 1719705600 = 48 ∧
    reference_epoch_from_seconds 1719792000 = 49 ∧
    reference_epoch_from_seconds 1735603200 = 49 := by
  refine ⟨fun s => rfl, fun s k => reference_epoch_mono (Nat.le_add_right s k),
    ?_, ?_, ?_, ?_⟩ <;> decide

/-- C6 counterexample: at the configuration `samplesPerFrame = 3`,
`bitsPerSample = 2` the total frame length 33 is not a multiple of 8; the
encoder does not reject it — it still produces a 32-byte header — and the
floor-divided length field no longer satisfies the invariant. -/
theorem frame_length_not_rejected :
    frame_length_units (payload_size_of 3 2) * 8 ≠ 32 + payload_size_of 3 2 ∧
    (create_vdif_header_cfg (payload_size_of 3 2) 0 0).length = 32 := by decide

/-- C6 (amended): the frame-length invariant
`frameLengthUnits * 8 = 32 + payloadSizeBytes` holds for the script's
actual configuration; in general the code never rejects a configuration —
`frame_length_units` silently floors, and the encoder returns a 32-byte
header for every payload size. -/
theorem frame_length_spec_amended :
    frame_length_units PAYLOAD_SIZE * 8 = 32 + PAYLOAD_SIZE ∧
    (∀ p : ℕ, frame_length_units p * 8 = (32 + p) - (32 + p) % 8) ∧
    (∀ p s n : ℕ, (create_vdif_header_cfg p s n).length = 32) :=
  ⟨by decide, frame_length_units_floor, fun p s n => create_vdif_header_cfg_length p s n⟩

/-- C7: a one-second run is 3200 frames (`num_frames 1 = FRAMES_PER_SECOND
= 3200`), and every datagram assembled from a full frame of 20000 samples
is exactly `32 + 5000 = 5032` bytes. -/
theorem one_second_run_spec :
    num_frames 1 = 3200 ∧ FRAMES_PER_SECOND = 3200 ∧
    ∀ (epoch_start frame_num : ℕ) (samples : List ℕ),
      samples.length = SAMPLES_PER_FRAME →
      (vdif_frame epoch_start frame_num samples).length = 32 + 5000 :=
  ⟨num_frames_one, frames_per_second_eq,
    fun a b samples h => by rw [vdif_frame_length a b samples h]⟩

/-- Witness for C7 at a concrete full frame of samples. -/
theorem one_second_run_spec_witness :
    (vdif_frame 0 0 (List.replicate 20000 0)).length = 32 + 5000 :=
  one_second_run_spec.2.2 0 0 (List.replicate 20000 0)
    (by rw [List.length_replicate]; rfl)

/-- C8 counterexample: with per-iteration overhead equal to one frame
duration, the finish time of tick 1 under the source's fixed-duration
sleep is not the absolute deadline `start + 2 * FRAME_DURATION`; it
overshoots it by two frame durations, so overhead does accumulate. -/
theorem pacing_not_deadline_scheduled :
    tick_finish_time 0 FRAME_DURATION 1 ≠ absolute_deadline 0 1 ∧
    tick_finish_time 0 FRAME_DURATION 1 - absolute_deadline 0 1 = 2 * FRAME_DURATION := by
  unfold tick_finish_time tick_finish_time absolute_deadline FRAME_DURATION
  unfold SAMPLES_PER_FRAME SAMPLE_RATE
  norm_num

/-- C8 (amended): the loop sleeps the fixed `FRAME_DURATION` after every
frame rather than until an absolute deadline, so with per-iteration
overhead `o` tick `i` finishes at `start + (i+1) * (o + FRAME_DURATION)`
and drifts past the absolute deadline by `(i+1) * o`, growing with `i`. -/
theorem pacing_fixed_sleep_spec (start o : ℚ) (i : ℕ) :
    tick_finish_time start o i = start + (i + 1 : ℕ) * (o + FRAME_DURATION) ∧
    tick_finish_time start o i - absolute_deadline start i = (i + 1 : ℕ) * o :=
  ⟨tick_finish_time_eq start o i, pacing_drift start o i⟩

/-- C9: the packer is total on arbitrary natural codes — each group packs
to one byte whose slot `j` (at bit offset `6 - 2 * j`) holds its own code
mod 4, no matter how large the neighbouring codes are. -/
theorem generate_payload_total_spec (a b c d : ℕ) (rest : List ℕ) :
    generate_payload (a :: b :: c :: d :: rest) =
      packGroup [a, b, c, d] :: generate_payload rest ∧
    (packGroup [a, b, c, d] >>> 6) &&& 0x03 = a % 4 ∧
    (packGroup [a, b, c, d] >>> 4) &&& 0x03 = b % 4 ∧
    (packGroup [a, b, c, d] >>> 2) &&& 0x03 = c % 4 ∧
    packGroup [a, b, c, d] &&& 0x03 = d % 4 ∧
    packGroup [a, b, c, d] = a % 4 * 64 + b % 4 * 16 + c % 4 * 4 + d % 4 := by
  obtain ⟨h1, h2, h3, h4⟩ := packGroup_extract a b c d
  exact ⟨rfl, h1, h2, h3, h4, packGroup_eq a b c d⟩

/-- C10: the per-frame counters are `frame_num % FRAMES_PER_SECOND` and
`epoch_start + frame_num / FRAMES_PER_SECOND` with `FRAMES_PER_SECOND =
3200 < 2 ^ 24`; the 24-bit mask in word 1 never truncates the
frame-in-second value, word 1's low 24 bits carry it exactly, and it
returns to 0 exactly at the ticks where the epoch second increments. -/
theorem frame_counter_spec (epoch_start frame_num : ℕ) :
    frame_in_second_of frame_num = frame_num % 3200 ∧
    epoch_seconds_of epoch_start frame_num = epoch_start + frame_num / 3200 ∧
    frame_in_second_of frame_num &&& 0x00FFFFFF = frame_in_second_of frame_num ∧
    vdif_word1 (epoch_seconds_of epoch_start frame_num) (frame_in_second_of frame_num) %
      2 ^ 24 = frame_num % 3200 ∧
    (frame_in_second_of (frame_num + 1) = 0 ↔
      epoch_seconds_of epoch_start (frame_num + 1) =
        epoch_seconds_of epoch_start frame_num + 1) := by
  have hf : FRAMES_PER_SECOND = 3200 := frames_per_second_eq
  unfold frame_in_second_of epoch_seconds_of
  rw [hf]
  have hlt : frame_num % 3200 < 3200 := Nat.mod_lt frame_num (by norm_num)
  refine ⟨rfl, rfl, ?_, ?_, ?_⟩
  · rw [show (0x00FFFFFF : ℕ) = 2 ^ 24 - 1 by norm_num, Nat.and_pow_two_sub_one_eq_mod]
    norm_num
    omega
  · rw [word1_low24]
    norm_num
    omega
  · omega
